import Mathlib

/-!
Shallow embedding of `src/main.py` (a contact-book CLI assistant) and proofs
about its behavior.

Strings are modelled as `List Char`.  Python exceptions are modelled with
`Except PyError`; `exit()` (process termination on the exit commands) is
modelled as a distinct successful result.  Machine-level details (stdin/stdout)
are outside the claims and are not modelled; `parse_command` is embedded as a
function from the input line and the current address book to the result and the
(possibly mutated) address book, since the Python code mutates the book before
it may raise.
-/

/-- `str.lower` on one character, for the ASCII range (the commands and
messages of the program are ASCII). -/
def pyLowerChar (c : Char) : Char :=
  if 65 ≤ c.toNat ∧ c.toNat ≤ 90 then Char.ofNat (c.toNat + 32) else c

/-- `command.lower()`. -/
def pyLower (s : List Char) : List Char := s.map pyLowerChar

/-- Python `str.split()` whitespace characters. -/
def isPySpace (c : Char) : Bool :=
  c == ' ' || c == '\t' || c == '\n' || c == '\r' || c == '\x0b' || c == '\x0c'

/-- Split off everything before the first `' '`; `none` when there is no
space.  Helper for `str.split(' ', maxsplit)`. -/
def breakSp : List Char → Option (List Char × List Char)
  | [] => none
  | c :: cs =>
    if c = ' ' then some ([], cs)
    else (breakSp cs).map (fun p => (c :: p.1, p.2))

/-- Python `s.split(' ', maxsplit)`: split at single spaces, at most
`maxsplit` times, keeping empty pieces. -/
def pySplitSp : List Char → Nat → List (List Char)
  | s, 0 => [s]
  | s, m + 1 =>
    match breakSp s with
    | none => [s]
    | some p => p.1 :: pySplitSp p.2 m

/-- Accumulator loop for `s.split()` (split on whitespace runs, dropping
empty pieces).  `acc` holds the current token reversed. -/
def pySplitWsAux : List Char → List Char → List (List Char)
  | acc, [] => if acc = [] then [] else [acc.reverse]
  | acc, c :: cs =>
    if isPySpace c then
      if acc = [] then pySplitWsAux [] cs else acc.reverse :: pySplitWsAux [] cs
    else pySplitWsAux (c :: acc) cs

/-- Python `s.split()` with no arguments. -/
def pySplitWs (s : List Char) : List (List Char) := pySplitWsAux [] s

/-- Decimal digits to a number (callers check `isDigit` first). -/
def digitsToNat (s : List Char) : Nat :=
  s.foldl (fun n c => 10 * n + (c.toNat - 48)) 0

/-- Strip leading and trailing whitespace, as Python `int()` does before
parsing. -/
def pyStrip (s : List Char) : List Char :=
  ((s.dropWhile isPySpace).reverse.dropWhile isPySpace).reverse

/-- Python `int(s)`: optional sign then decimal digits, surrounding
whitespace allowed; `none` models the `ValueError`. -/
def pyInt (s : List Char) : Option Int :=
  match pyStrip s with
  | '-' :: ds =>
    if !ds.isEmpty && ds.all Char.isDigit then some (-(digitsToNat ds : Int)) else none
  | '+' :: ds =>
    if !ds.isEmpty && ds.all Char.isDigit then some ((digitsToNat ds : Int)) else none
  | ds =>
    if !ds.isEmpty && ds.all Char.isDigit then some ((digitsToNat ds : Int)) else none

/-- Clip one slice bound to `0 ≤ i ≤ len`, with Python's negative-index
semantics (`i < 0` counts from the end). -/
def pyBound (len : Nat) (i : Int) : Nat :=
  if i < 0 then (if (len : Int) + i < 0 then 0 else ((len : Int) + i).toNat)
  else min i.toNat len

/-- Python slice `l[a:b]`. -/
def pySlice (l : List α) (a b : Int) : List α :=
  (l.take (pyBound l.length b)).drop (pyBound l.length a)

/-- Replace the first occurrence of `a` in a list by `b`. -/
def replaceFirst [DecidableEq α] : List α → α → α → List α
  | [], _, _ => []
  | x :: xs, a, b => if x = a then b :: xs else x :: replaceFirst xs a b

/-- Python `sep.join(pieces)`. -/
def strJoin (sep : List Char) : List (List Char) → List Char
  | [] => []
  | [x] => x
  | x :: xs => x ++ sep ++ strJoin sep xs

/-- The message of the `ValueError` Python raises when tuple unpacking of
`n` values into two names fails. -/
def unpack2Msg (n : Nat) : List Char :=
  if n < 2 then
    ("not enough values to unpack (expected 2, got " ++ (Nat.repr n) ++ ")").toList
  else "too many values to unpack (expected 2)".toList

/-- Python exceptions raised by the program. -/
inductive PyError where
  | valueError (msg : List Char)
  | keyError (key : List Char)
  | indexError
deriving DecidableEq

deriving instance DecidableEq for Except

/-- `d[k] = v` on a Python dict modelled as an insertion-ordered
association list: overwrite in place when the key exists, else append. -/
def dictSet [DecidableEq κ] (d : List (κ × α)) (k : κ) (v : α) : List (κ × α) :=
  if d.any (fun p => decide (p.1 = k)) then
    d.map (fun p => if p.1 = k then (k, v) else p)
  else d ++ [(k, v)]

/-- `d.get(k, None)`. -/
def dictGet [DecidableEq κ] (d : List (κ × α)) (k : κ) : Option α :=
  (d.find? (fun p => decide (p.1 = k))).map (fun p => p.2)

/-- `k in d`. -/
def dictContains [DecidableEq κ] (d : List (κ × α)) (k : κ) : Bool :=
  d.any (fun p => decide (p.1 = k))

/-- `del d[k]`. -/
def dictDel [DecidableEq κ] (d : List (κ × α)) (k : κ) : List (κ × α) :=
  d.filter (fun p => decide (p.1 ≠ k))

/-- `Name(Field)`: unconstrained string field. -/
structure Name where
  val : List Char
deriving DecidableEq

/-- `Phone(Field)`: string field whose constructor and setter validate. -/
structure Phone where
  val : List Char
deriving DecidableEq

/-- `Birthday(Field)`: string field; only its `value` *setter* validates. -/
structure Birthday where
  val : List Char
deriving DecidableEq

/-- `Phone.is_valid_phone`: exactly 10 characters, all digits. -/
def Phone.is_valid_phone (phone : List Char) : Bool :=
  decide (phone.length = 10) && phone.all Char.isDigit

/-- The `ValueError` message of a malformed phone. -/
def phoneFormatMsg : List Char := "Invalid phone number format".toList

/-- `Phone.__init__`: validates, then stores. -/
def Phone.init (value : List Char) : Except PyError Phone :=
  if Phone.is_valid_phone value then .ok ⟨value⟩
  else .error (.valueError phoneFormatMsg)

/-- The `value` setter of `Phone`: validates, then stores. -/
def Phone.set (_p : Phone) (new_value : List Char) : Except PyError Phone :=
  if Phone.is_valid_phone new_value then .ok ⟨new_value⟩
  else .error (.valueError phoneFormatMsg)

/-- Whether `datetime.strptime(s, '%Y-%m-%d')` succeeds: four year digits,
dash, one or two month digits in 1..12, dash, one or two day digits valid
for that month and year (Gregorian leap rule), nothing left over, year ≥ 1. -/
def is_valid_date (s : List Char) : Bool :=
  match s with
  | y1 :: y2 :: y3 :: y4 :: '-' :: rest =>
    if y1.isDigit && y2.isDigit && y3.isDigit && y4.isDigit then
      match rest.splitOn '-' with
      | [mcs, dcs] =>
        let y := digitsToNat [y1, y2, y3, y4]
        let m := digitsToNat mcs
        let d := digitsToNat dcs
        let daysInMonth : Nat :=
          if m = 2 then
            (if y % 4 = 0 && (y % 100 != 0 || y % 400 = 0) then 29 else 28)
          else if m = 4 || m = 6 || m = 9 || m = 11 then 30 else 31
        (!mcs.isEmpty) && decide (mcs.length ≤ 2) && mcs.all Char.isDigit &&
        (!dcs.isEmpty) && decide (dcs.length ≤ 2) && dcs.all Char.isDigit &&
        decide (1 ≤ y) && decide (1 ≤ m) && decide (m ≤ 12) &&
        decide (1 ≤ d) && decide (d ≤ daysInMonth)
      | _ => false
    else false
  | _ => false

/-- The `ValueError` message of a malformed birthday. -/
def birthdayFormatMsg : List Char := "Invalid birthday date format. Use YYYY-MM-DD format.".toList

/-- `Birthday(value)` runs the inherited `Field.__init__`, which assigns
`self._value` directly and so NEVER runs the validating `value` setter:
construction stores any string unchecked. -/
def Birthday.init (value : List Char) : Birthday := ⟨value⟩

/-- The `value` setter of `Birthday`: validates via `strptime`, then stores. -/
def Birthday.set (_b : Birthday) (new_value : List Char) : Except PyError Birthday :=
  if is_valid_date new_value then .ok ⟨new_value⟩
  else .error (.valueError birthdayFormatMsg)

/-- `Record`: one contact. -/
structure Record where
  name : Name
  phones : List Phone
  birthday : Option Birthday
deriving DecidableEq

/-- `Record.__init__(name, birthday=None)`: the empty string and `None` are
both falsy, so `[]` models "no birthday given".  A non-empty birthday is
wrapped by `Birthday(...)`, which performs no validation (see
`Birthday.init`). -/
def Record.init (name birthday : List Char) : Record :=
  { name := ⟨name⟩, phones := [],
    birthday := if birthday = [] then none else some (Birthday.init birthday) }

/-- `Record.add_phone`: validate and append. -/
def Record.add_phone (r : Record) (phone : List Char) : Except PyError Record :=
  (Phone.init phone).map (fun ph => { r with phones := r.phones ++ [ph] })

/-- The loop of `Record.remove_phone`: drop the first phone with the given
value, no-op when absent. -/
def removeFirstPhone : List Phone → List Char → List Phone
  | [], _ => []
  | p :: ps, v => if p.val = v then ps else p :: removeFirstPhone ps v

/-- `Record.remove_phone`. -/
def Record.remove_phone (r : Record) (phone : List Char) : Record :=
  { r with phones := removeFirstPhone r.phones phone }

/-- The `for ... else` loop of `Record.edit_phone`: at the first phone whose
value equals `old_phone`, assign `p.value = new_phone` through the validating
setter and stop; if the loop finishes without a match, raise
`ValueError("Phone number not found")`. -/
def Record.editPhones : List Phone → List Char → List Char → Except PyError (List Phone)
  | [], _, _ => .error (.valueError "Phone number not found".toList)
  | p :: ps, old_phone, new_phone =>
    if p.val = old_phone then (Phone.set p new_phone).map (fun q => q :: ps)
    else (Record.editPhones ps old_phone new_phone).map (fun l => p :: l)

/-- `Record.edit_phone`. -/
def Record.edit_phone (r : Record) (old_phone new_phone : List Char) : Except PyError Record :=
  (Record.editPhones r.phones old_phone new_phone).map (fun ps => { r with phones := ps })

/-- `Record.find_phone`. -/
def Record.find_phone (r : Record) (phone : List Char) : Option Phone :=
  r.phones.find? (fun p => decide (p.val = phone))

/-- `Record.__str__`. -/
def recordStr (r : Record) : List Char :=
  "Contact name: ".toList ++ r.name.val ++ ", phones: ".toList ++
    strJoin "; ".toList (r.phones.map Phone.val) ++
    (match r.birthday with
     | some b => ", Birthday: ".toList ++ b.val
     | none => [])

/-- `AddressBook(UserDict)`: the dict `data` plus the insertion-ordered
list `_values` (named `values` here). -/
structure AddressBook where
  data : List (List Char × Record)
  values : List Record
deriving DecidableEq

/-- `AddressBook()`. -/
def AddressBook.empty : AddressBook := ⟨[], []⟩

/-- `AddressBook.add_record`: overwrite `data[record.name.value]` and append
to `_values` (never deduplicating `_values`). -/
def AddressBook.add_record (b : AddressBook) (r : Record) : AddressBook :=
  { data := dictSet b.data r.name.val r, values := b.values ++ [r] }

/-- `AddressBook.find`. -/
def AddressBook.find (b : AddressBook) (name : List Char) : Option Record :=
  dictGet b.data name

/-- `AddressBook.delete`. -/
def AddressBook.delete (b : AddressBook) (name : List Char) : AddressBook :=
  if dictContains b.data name then
    { data := dictDel b.data name,
      values := b.values.filter (fun r => decide (r.name.val ≠ name)) }
  else b

/-- `AddressBook.paginated_list(page, page_size)` =
`self._values[(page-1)*page_size : (page-1)*page_size + page_size]`. -/
def AddressBook.paginated_list (b : AddressBook) (page page_size : Int) : List Record :=
  pySlice b.values ((page - 1) * page_size) ((page - 1) * page_size + page_size)

/-- `AddressBook.__str__`. -/
def bookStr (b : AddressBook) : List Char :=
  strJoin ['\n'] (b.values.map recordStr)

/-- What a dispatched command produces when no exception is raised: a reply
string, or the `Good bye!`-and-`exit()` path. -/
inductive PResult where
  | reply (s : List Char)
  | goodbye
deriving DecidableEq

/-- `Assistant.paginated_contacts`. -/
def Assistant.paginated_contacts (contacts : AddressBook) (page page_size : Int) : List Char :=
  let cs := contacts.paginated_list page page_size
  if cs = [] then "No contacts found on this page.".toList
  else strJoin ['\n'] (cs.map recordStr)

/-- `Assistant.parse_command`, as a function from the input line and the
current book to (result or exception, book after the command).  Python
mutates `self.contacts` in place; where a record object reachable from both
`data` and `_values` is mutated, both views are updated here (in the `add`
branch the mutated object is the one just appended, hence `dropLast`; in the
`change` branch object identity is rendered as the first occurrence equal in
value to the looked-up record). -/
def Assistant.parse_command (cmd : List Char) (contacts : AddressBook) :
    Except PyError PResult × AddressBook :=
  let command := pyLower cmd
  if command = "hello".toList then
    (.ok (.reply "How can I help you?".toList), contacts)
  else if List.isPrefixOf "add ".toList command then
    match pySplitSp command 1 with
    | [_, data] =>
      match pySplitWs data with
      | [name, phone, birthday] =>
        let book1 := contacts.add_record (Record.init name birthday)
        -- self.contacts.data[name]: plain dict indexing (KeyError on a miss,
        -- though the key was just inserted)
        match book1.find name with
        | none => (.error (.keyError name), book1)
        | some c =>
          match Phone.init phone with
          | .error e => (.error e, book1)
          | .ok ph =>
            let c2 := { c with phones := c.phones ++ [ph] }
            (.ok (.reply ("Added contact: ".toList ++ name ++ ", ".toList ++ phone ++
                          ", Birthday: ".toList ++ birthday)),
             { data := dictSet book1.data name c2,
               values := book1.values.dropLast ++ [c2] })
      | _parts =>
        (.ok (.reply "Give me name, phone, and birthday (if applicable)".toList), contacts)
    | other => (.error (.valueError (unpack2Msg other.length)), contacts)
  else if List.isPrefixOf "change ".toList command then
    match pySplitSp command 1 with
    | [_, data] =>
      if ' ' ∈ data then
        match pySplitWs data with
        | [name, phone] =>
          match contacts.find name with
          | some c =>
            -- contact.phones[0] is evaluated first: IndexError when empty
            match c.phones with
            | [] => (.error .indexError, contacts)
            | p0 :: _ =>
              match Record.edit_phone c p0.val phone with
              | .error e => (.error e, contacts)
              | .ok c2 =>
                (.ok (.reply ("Updated contact: ".toList ++ name ++ ", ".toList ++ phone)),
                 { data := dictSet contacts.data name c2,
                   values := replaceFirst contacts.values c c2 })
          | none =>
            (.error (.valueError ("Contact '".toList ++ name ++ "' not found.".toList)),
             contacts)
        | parts => (.error (.valueError (unpack2Msg parts.length)), contacts)
      else (.ok (.reply "Give me name and phone please".toList), contacts)
    | other => (.error (.valueError (unpack2Msg other.length)), contacts)
  else if List.isPrefixOf "phone ".toList command then
    match pySplitSp command 1 with
    | [_, name] =>
      match contacts.find name with
      | some c =>
        match c.phones with
        | [] => (.error .indexError, contacts)
        | p0 :: _ =>
          (.ok (.reply ("Phone number for ".toList ++ name ++ ": ".toList ++ p0.val)),
           contacts)
      | none =>
        (.error (.valueError ("Contact '".toList ++ name ++ "' not found.".toList)),
         contacts)
    | other => (.error (.valueError (unpack2Msg other.length)), contacts)
  else if command = "show all".toList then
    if contacts.data = [] then (.ok (.reply "No users found".toList), contacts)
    else (.ok (.reply (Assistant.paginated_contacts contacts 1 5)), contacts)
  else if List.isPrefixOf "show page ".toList command then
    -- `_, page_str = command.split(' ', 2)` happens BEFORE the try block
    match pySplitSp command 2 with
    | [_, page_str] =>
      -- try: int(page_str); raise on page <= 0; except ValueError: reply
      match pyInt page_str with
      | none => (.ok (.reply "Invalid page number.".toList), contacts)
      | some page =>
        if page ≤ 0 then (.ok (.reply "Invalid page number.".toList), contacts)
        else (.ok (.reply (Assistant.paginated_contacts contacts page 5)), contacts)
    | other => (.error (.valueError (unpack2Msg other.length)), contacts)
  else if command = "good bye".toList ∨ command = "close".toList ∨ command = "exit".toList then
    (.ok .goodbye, contacts)
  else if command = "add".toList ∨ command = "change".toList then
    (.ok (.reply "Give me name and phone please".toList), contacts)
  else if command = "phone".toList then
    (.ok (.reply "Give me name please".toList), contacts)
  else (.error (.valueError "Unknown command.".toList), contacts)

/-- Keys of the mapping view. -/
def keysList (b : AddressBook) : List (List Char) := b.data.map (fun p => p.1)

/-- Names of the ordered-sequence view. -/
def namesList (b : AddressBook) : List (List Char) := b.values.map (fun r => r.name.val)

/-- The Address Book invariant of the spec: every key of the mapping
corresponds to exactly one entry of the ordered sequence and vice versa. -/
def consistent (b : AddressBook) : Prop :=
  (namesList b).Nodup ∧ ∀ k : List Char, k ∈ keysList b ↔ k ∈ namesList b

/-- A mutating Address Book operation. -/
inductive BookOp where
  | addR (r : Record)
  | del (n : List Char)
deriving DecidableEq

/-- Run one operation. -/
def applyOp (b : AddressBook) : BookOp → AddressBook
  | .addR r => b.add_record r
  | .del n => b.delete n

/-- Run a sequence of operations. -/
def applyOps (b : AddressBook) : List BookOp → AddressBook
  | [] => b
  | op :: rest => applyOps (applyOp b op) rest

/-- `add_record` is only ever called with a name not already present. -/
def freshAdds (b : AddressBook) : List BookOp → Bool
  | [] => true
  | .addR r :: rest =>
    !(dictContains b.data r.name.val) && freshAdds (applyOp b (.addR r)) rest
  | .del n :: rest => freshAdds (applyOp b (.del n)) rest

/-- A concrete record with two phones, used to instantiate the
`edit_phone` theorem. -/
def twoPhoneRec : Record :=
  { name := ⟨"john".toList⟩,
    phones := [⟨"1111111111".toList⟩, ⟨"2222222222".toList⟩],
    birthday := none }

/-- A concrete three-record book used to instantiate the pagination
theorem. -/
def threeBook : AddressBook :=
  ((AddressBook.empty.add_record (Record.init "a".toList [])).add_record
    (Record.init "b".toList [])).add_record (Record.init "c".toList [])

/-! ### Helper lemmas -/

lemma dictGet_map_overwrite [DecidableEq κ] (d : List (κ × α)) (k : κ) (v : α)
    (h : d.any (fun p => decide (p.1 = k)) = true) :
    dictGet (d.map (fun p => if p.1 = k then (k, v) else p)) k = some v := by
  induction d with
  | nil => simp at h
  | cons p ps ih =>
    by_cases hp : p.1 = k
    · simp [dictGet, List.find?, hp]
    · simp only [List.any_cons, Bool.or_eq_true, decide_eq_true_eq] at h
      rcases h with h | h
    
      · exact absurd h hp
      · simpa [dictGet, List.find?, hp] using ih h

lemma dictGet_append_fresh [DecidableEq κ] (d : List (κ × α)) (k : κ) (v : α)
    (h : d.any (fun p => decide (p.1 = k)) = false) :
    dictGet (d ++ [(k, v)]) k = some v := by
  induction d with
  | nil => simp [dictGet, List.find?]
  | cons p ps ih =>
    rw [List.any_cons, Bool.or_eq_false_iff] at h
    have hp : ¬ p.1 = k := by simpa using h.1
    simpa [dictGet, List.find?, hp] using ih h.2

lemma dictGet_set [DecidableEq κ] (d : List (κ × α)) (k : κ) (v : α) :
    dictGet (dictSet d k v) k = some v := by
  unfold dictSet
  by_cases h : d.any (fun p => decide (p.1 = k)) = true
  · rw [if_pos h]; exact dictGet_map_overwrite d k v h
  · rw [if_neg h]; exact dictGet_append_fresh d k v (by rwa [Bool.not_eq_true] at h)

lemma find_add_record (b : AddressBook) (r : Record) :
    (b.add_record r).find r.name.val = some r :=
  dictGet_set b.data r.name.val r

lemma dictGet_del [DecidableEq κ] (d : List (κ × α)) (k : κ) :
    dictGet (dictDel d k) k = none := by
  unfold dictGet dictDel
  rw [List.find?_eq_none.mpr]
  · rfl
  · intro p hp
    have := (List.mem_filter.mp hp).2
    simpa using this

lemma dictGet_eq_none_of_not_contains [DecidableEq κ] (d : List (κ × α)) (k : κ)
    (h : dictContains d k = false) : dictGet d k = none := by
  unfold dictContains at h
  rw [List.any_eq_false] at h
  unfold dictGet
  rw [List.find?_eq_none.mpr]
  · rfl
  · intro p hp; exact h p hp

lemma contains_eq_false_of_find_none (b : AddressBook) (n : List Char)
    (h : b.find n = none) : dictContains b.data n = false := by
  unfold AddressBook.find dictGet at h
  cases hf : List.find? (fun p => decide (p.1 = n)) b.data with
  | some p => rw [hf] at h; simp at h
  | none =>
    rw [List.find?_eq_none] at hf
    unfold dictContains
    rw [List.any_eq_false]
    exact hf

lemma map_filter_comp (f : α → β) (q : β → Bool) (l : List α) :
    (l.filter (fun x => q (f x))).map f = (l.map f).filter q := by
  induction l with
  | nil => rfl
  | cons x xs ih =>
    by_cases h : q (f x) = true <;>
      simp [List.filter_cons, h, ih]

lemma consistent_add_fresh (b : AddressBook) (r : Record) (hb : consistent b)
    (hk : dictContains b.data r.name.val = false) : consistent (b.add_record r) := by
  obtain ⟨hnd, hiff⟩ := hb
  have hany : b.data.any (fun p => decide (p.1 = r.name.val)) = false := hk
  have hkey : r.name.val ∉ namesList b := by
    intro hmem
    rw [← hiff] at hmem
    unfold keysList at hmem
    rw [List.any_eq_false] at hany
    obtain ⟨p, hp, hpe⟩ := List.mem_map.mp hmem
    exact absurd (by simpa using (show decide (p.1 = r.name.val) = true by simp [hpe]))
      (by simpa using hany p hp)
  have hdata : (b.add_record r).data = b.data ++ [(r.name.val, r)] := by
    simp [AddressBook.add_record, dictSet, hany]
  have hvals : (b.add_record r).values = b.values ++ [r] := rfl
  constructor
  · rw [namesList, hvals, List.map_append]
    rw [List.nodup_append]
    refine ⟨hnd, by simp, ?_⟩
    intro a ha hb2
    simp only [List.map_cons, List.map_nil, List.mem_singleton] at hb2
    subst hb2
    exact hkey ha
  · intro k
    rw [keysList, hdata, namesList, hvals, List.map_append, List.map_append]
    simp only [List.mem_append, List.map_cons, List.map_nil, List.mem_singleton]
    rw [show (k ∈ List.map (fun p => p.1) b.data) = (k ∈ keysList b) from rfl,
       show (k ∈ List.map (fun r => r.name.val) b.values) = (k ∈ namesList b) from rfl,
       hiff k]

lemma consistent_delete (b : AddressBook) (n : List Char) (hb : consistent b) :
    consistent (b.delete n) := by
  obtain ⟨hnd, hiff⟩ := hb
  unfold AddressBook.delete
  by_cases hc : dictContains b.data n = true
  · rw [if_pos hc]
    constructor
    · show ((b.values.filter _).map _).Nodup
      rw [map_filter_comp (fun r => r.name.val) (fun k => decide (k ≠ n)) b.values]
      exact List.Nodup.filter _ hnd
    · intro k
      show k ∈ (b.data.filter _).map (fun p => p.1) ↔ k ∈ (b.values.filter _).map _
      rw [map_filter_comp (fun p => p.1) (fun k => decide (k ≠ n)) b.data,
          map_filter_comp (fun r => r.name.val) (fun k => decide (k ≠ n)) b.values]
      simp only [List.mem_filter]
      rw [show (k ∈ List.map (fun p => p.1) b.data) = (k ∈ keysList b) from rfl,
         show (k ∈ List.map (fun r => r.name.val) b.values) = (k ∈ namesList b) from rfl,
         hiff k]
  · rw [if_neg hc]
    exact ⟨hnd, hiff⟩

lemma consistent_applyOps (b : AddressBook) (ops : List BookOp)
    (hb : consistent b) (hf : freshAdds b ops = true) :
    consistent (applyOps b ops) := by
  induction ops generalizing b with
  | nil => exact hb
  | cons op rest ih =>
    cases op with
    | addR r =>
      rw [freshAdds, Bool.and_eq_true] at hf
      have h1 : dictContains b.data r.name.val = false := by
        have := hf.1
        rwa [Bool.not_eq_eq_eq_not, Bool.not_true] at this
      exact ih _ (consistent_add_fresh b r hb h1) hf.2
    | del n =>
      rw [freshAdds] at hf
      exact ih _ (consistent_delete b n hb) hf

/-! ### Claim theorems -/

/-- C1.  The claim says Birthday construction (also via Record construction)
fails with a format error on every non-date string.  The code does not do
this: `Birthday.__init__` is the inherited `Field.__init__`, which stores the
value without ever calling the validating `value` setter.  At the concrete
non-date string `"garbage"` the validator rejects, the setter rejects, yet
construction succeeds and stores the invalid value — including through
`Record(name, birthday)`. -/
theorem birthday_construction_skips_validation :
    is_valid_date "garbage".toList = false ∧
    Birthday.init "garbage".toList = ⟨"garbage".toList⟩ ∧
    Record.init "john".toList "garbage".toList =
      { name := ⟨"john".toList⟩, phones := [],
        birthday := some ⟨"garbage".toList⟩ } ∧
    Birthday.set ⟨"1990-05-01".toList⟩ "garbage".toList =
      .error (.valueError birthdayFormatMsg) := by
  refine ⟨by decide, rfl, by decide, by decide⟩

/-- C3 (counterexample).  Adding two records with the same name leaves the
mapping with one key but the ordered sequence with two entries of that name:
the two views do not stay consistent. -/
theorem consistency_counterexample :
    ¬ consistent ((AddressBook.empty.add_record (Record.init "a".toList [])).add_record
        (Record.init "a".toList [])) := by
  intro h
  exact absurd h.1 (by decide)

/-- C3 (amended).  For every sequence of `add_record`/`delete` operations in
which `add_record` is never called with a name already present as a key, the
mapping and the ordered sequence stay consistent: every key corresponds to
exactly one entry of the ordered sequence and vice versa.  (`add_record` with
a name already present breaks the invariant — see the counterexample.) -/
theorem consistency_preserved (b : AddressBook) (ops : List BookOp)
    (hb : consistent b) (hf : freshAdds b ops = true) :
    consistent (applyOps b ops) :=
  consistent_applyOps b ops hb hf

/-- C3 witness: a concrete fresh-name operation sequence keeps the book
consistent. -/
theorem consistency_preserved_witness :
    consistent (applyOps AddressBook.empty
      [BookOp.addR (Record.init "a".toList []), BookOp.addR (Record.init "b".toList []),
       BookOp.del "a".toList]) :=
  consistency_preserved AddressBook.empty _
    ⟨by simp [namesList, AddressBook.empty],
     fun k => by simp [keysList, namesList, AddressBook.empty]⟩
    (by decide)

/-- C4.  `Phone` construction with `s` succeeds iff `s` has exactly 10
characters, all digits; otherwise both the constructor and the `value`
setter fail with the `Invalid phone number format` error. -/
theorem phone_validation (s : List Char) (p : Phone) :
    (Phone.is_valid_phone s = true ↔ s.length = 10 ∧ ∀ c ∈ s, c.isDigit = true) ∧
    (Phone.is_valid_phone s = true →
      Phone.init s = .ok ⟨s⟩ ∧ Phone.set p s = .ok ⟨s⟩) ∧
    (Phone.is_valid_phone s = false →
      Phone.init s = .error (.valueError phoneFormatMsg) ∧
      Phone.set p s = .error (.valueError phoneFormatMsg)) := by
  refine ⟨?_, ?_, ?_⟩
  · simp [Phone.is_valid_phone, List.all_eq_true]
  · intro h; simp [Phone.init, Phone.set, h]
  · intro h; simp [Phone.init, Phone.set, h]

/-- C4 witness: a 10-digit string is accepted, a 3-character string is
rejected by constructor and setter. -/
theorem phone_validation_witness :
    (Phone.init "0123456789".toList = .ok ⟨"0123456789".toList⟩ ∧
      Phone.set ⟨"0000000000".toList⟩ "0123456789".toList = .ok ⟨"0123456789".toList⟩) ∧
    (Phone.init "123".toList = .error (.valueError phoneFormatMsg) ∧
      Phone.set ⟨"0000000000".toList⟩ "123".toList = .error (.valueError phoneFormatMsg)) :=
  ⟨(phone_validation "0123456789".toList ⟨"0000000000".toList⟩).2.1 (by decide),
   (phone_validation "123".toList ⟨"0000000000".toList⟩).2.2 (by decide)⟩

/-- C7.  `find` after `delete name` returns absent for every book and name,
and when the name is not present `delete` is a no-op (it returns the book
unchanged rather than raising). -/
theorem delete_then_find (b : AddressBook) (n : List Char) :
    (b.delete n).find n = none ∧ (b.find n = none → b.delete n = b) := by
  constructor
  · unfold AddressBook.delete
    by_cases hc : dictContains b.data n = true
    · rw [if_pos hc]
      exact dictGet_del b.data n
    · rw [if_neg hc]
      exact dictGet_eq_none_of_not_contains b.data n (by rwa [Bool.not_eq_true] at hc)
  · intro h
    unfold AddressBook.delete
    rw [contains_eq_false_of_find_none b n h]
    simp

/-- C7 witness: deleting `"bob"` from a one-record book makes `find` return
absent, and deleting from the empty book is a no-op. -/
theorem delete_then_find_witness :
    ((AddressBook.empty.add_record (Record.init "bob".toList [])).delete "bob".toList).find
        "bob".toList = none ∧
    AddressBook.empty.delete "bob".toList = AddressBook.empty :=
  ⟨(delete_then_find (AddressBook.empty.add_record (Record.init "bob".toList []))
      "bob".toList).1,
   (delete_then_find AddressBook.empty "bob".toList).2 rfl⟩

/-- C8.  `add_record` followed by `find` with the added record's name
returns a record whose name matches (indeed the very record added). -/
theorem add_record_then_find (b : AddressBook) (r : Record) :
    ∃ r2, (b.add_record r).find r.name.val = some r2 ∧ r2.name = r.name :=
  ⟨r, find_add_record b r, rfl⟩

lemma pySlice_natCast (l : List α) (a P : Nat) :
    pySlice l (a : Int) ((a : Int) + (P : Int)) = (l.drop a).take P := by
  unfold pySlice pyBound
  rw [if_neg (by omega : ¬(((a : Int) + (P : Int)) < 0)),
      if_neg (by omega : ¬((a : Int) < 0))]
  rw [(by omega : ((a : Int) + (P : Int)).toNat = a + P),
      (by omega : ((a : Int)).toNat = a)]
  have t1 : l.take (min (a + P) l.length) = l.take (a + P) := by
    rw [List.take_eq_take]
    omega
  rw [t1]
  rcases le_or_lt a l.length with h | h
  · rw [min_eq_left h, List.drop_take]
    congr 1
    omega
  · rw [min_eq_right h.le]
    rw [List.drop_eq_nil_of_le (by rw [List.length_take]; omega),
        List.drop_eq_nil_of_le h.le, List.take_nil]

lemma chunks_join_aux (n : Nat) : ∀ (l : List α) (P : Nat), 0 < P → l.length ≤ n * P →
    ((List.range n).map (fun i => (l.drop (i * P)).take P)).flatten = l := by
  induction n with
  | zero =>
    intro l P _ hlen
    simp only [Nat.zero_mul, Nat.le_zero] at hlen
    rw [List.length_eq_zero] at hlen
    simp [hlen]
  | succ n ih =>
    intro l P hP hlen
    rw [List.range_succ_eq_map, List.map_cons, List.map_map, List.flatten_cons]
    have hrw : (List.map ((fun i => (l.drop (i * P)).take P) ∘ Nat.succ) (List.range n)) =
        List.map (fun i => ((l.drop P).drop (i * P)).take P) (List.range n) := by
      apply List.map_congr_left
      intro i _
      simp only [Function.comp_apply]
      rw [List.drop_drop]
      congr 2
      simp [Nat.succ_eq_add_one]
      ring
    have hx : (n + 1) * P = n * P + P := by ring
    rw [hx] at hlen
    rw [hrw, ih (l.drop P) P hP (by simp only [List.length_drop]; omega)]
    simp only [Nat.zero_mul, List.drop_zero]
    exact List.take_append_drop P l

lemma length_le_ceil_mul (N P : Nat) (hP : 0 < P) : N ≤ ((N + P - 1) / P) * P := by
  have h := le_smul_ceilDiv (α := ℕ) (β := ℕ) (b := N) hP
  rw [Nat.ceilDiv_eq_add_pred_div, smul_eq_mul, Nat.mul_comm] at h
  exact h

/-- C5.  For page size `P > 0`, the concatenation of
`paginated_list 1 P, ..., paginated_list ⌈N/P⌉ P` (in order) is exactly the
full ordered sequence, and every page past `⌈N/P⌉` is empty. -/
theorem pagination_partition (b : AddressBook) (P : Nat) (hP : 0 < P) :
    ((List.range ((b.values.length + P - 1) / P)).map
      (fun i : Nat => b.paginated_list ((i : Int) + 1) (P : Int))).flatten = b.values ∧
    ∀ page : Int, (((b.values.length + P - 1) / P : Nat) : Int) < page →
      b.paginated_list page (P : Int) = [] := by
  constructor
  · have hmap : ∀ i : Nat, b.paginated_list ((i : Int) + 1) (P : Int) =
        (b.values.drop (i * P)).take P := by
      intro i
      unfold AddressBook.paginated_list
      rw [show ((i : Int) + 1 - 1) * (P : Int) = ((i * P : Nat) : Int) by push_cast; ring]
      exact pySlice_natCast b.values (i * P) P
    rw [List.map_congr_left (fun i _ => hmap i)]
    exact chunks_join_aux _ b.values P hP (length_le_ceil_mul b.values.length P hP)
  · intro page hpage
    unfold AddressBook.paginated_list pySlice pyBound
    have hceil0 : (0 : Int) ≤ (((b.values.length + P - 1) / P : Nat) : Int) :=
      Int.natCast_nonneg _
    have hq : (0 : Int) ≤ (page - 1) * (P : Int) := by
      have : (0 : Int) ≤ page - 1 := by omega
      positivity
    rw [if_neg (by omega : ¬((page - 1) * (P : Int) < 0))]
    have hlen : b.values.length ≤ ((page - 1) * (P : Int)).toNat := by
      have h1 : (((b.values.length + P - 1) / P : Nat) : Int) + 1 ≤ page := by omega
      have h2 : (((b.values.length + P - 1) / P : Nat) : Int) * (P : Int) ≤
          (page - 1) * (P : Int) := by
        apply mul_le_mul_of_nonneg_right _ (by positivity)
        omega
      have h3 : (b.values.length : Int) ≤ (page - 1) * (P : Int) := by
        calc (b.values.length : Int)
            ≤ (((b.values.length + P - 1) / P : Nat) : Int) * (P : Int) := by
              exact_mod_cast length_le_ceil_mul b.values.length P hP
          _ ≤ (page - 1) * (P : Int) := h2
      omega
    rw [min_eq_right hlen]
    apply List.drop_eq_nil_of_le
    rw [List.length_take]
    omega

/-- C5 witness: with three records and page size 2, pages 1..2 concatenate
to the full sequence and page 5 is empty. -/
theorem pagination_partition_witness :
    ((List.range ((threeBook.values.length + 2 - 1) / 2)).map
      (fun i : Nat => threeBook.paginated_list ((i : Int) + 1) (2 : Int))).flatten =
        threeBook.values ∧
    threeBook.paginated_list 5 (2 : Int) = [] :=
  ⟨(pagination_partition threeBook 2 (by decide)).1,
   (pagination_partition threeBook 2 (by decide)).2 5 (by decide)⟩

lemma editPhones_not_found (ps : List Phone) (old_phone new_phone : List Char)
    (h : ∀ q ∈ ps, q.val ≠ old_phone) :
    Record.editPhones ps old_phone new_phone =
      .error (.valueError "Phone number not found".toList) := by
  induction ps with
  | nil => rfl
  | cons p ps ih =>
    have hp : ¬ p.val = old_phone := h p (List.mem_cons_self p ps)
    rw [Record.editPhones, if_neg hp,
       ih (fun q hq => h q (List.mem_cons_of_mem p hq))]
    rfl

lemma editPhones_found (l1 : List Phone) (p : Phone) (l2 : List Phone)
    (old_phone new_phone : List Char)
    (h1 : ∀ q ∈ l1, q.val ≠ old_phone) (hp : p.val = old_phone) :
    Record.editPhones (l1 ++ p :: l2) old_phone new_phone =
      (if Phone.is_valid_phone new_phone then .ok (l1 ++ ⟨new_phone⟩ :: l2)
       else .error (.valueError phoneFormatMsg)) := by
  induction l1 with
  | nil =>
    simp only [List.nil_append]
    rw [Record.editPhones, if_pos hp, Phone.set]
    by_cases hv : Phone.is_valid_phone new_phone = true
    · rw [if_pos hv, if_pos hv]; rfl
    · rw [if_neg hv, if_neg hv]; rfl
  | cons q l1 ih =>
    have hq : ¬ q.val = old_phone := h1 q (List.mem_cons_self q l1)
    simp only [List.cons_append]
    rw [Record.editPhones, if_neg hq,
       ih (fun x hx => h1 x (List.mem_cons_of_mem q hx))]
    by_cases hv : Phone.is_valid_phone new_phone = true
    · rw [if_pos hv, if_pos hv]; rfl
    · rw [if_neg hv, if_neg hv]; rfl

/-- C6.  `edit_phone(old, new)` replaces the first phone whose value equals
`old` with a validated `new`; when no phone equals `old` it fails with the
`Phone number not found` error; when a phone equals `old` but `new` is
malformed it fails with the `Invalid phone number format` error (and, the
embedding being pure, an error result leaves the record's phone list
unchanged). -/
theorem edit_phone_spec (r : Record) (old_phone new_phone : List Char)
    (l1 : List Phone) (p : Phone) (l2 : List Phone) :
    ((∀ q ∈ r.phones, q.val ≠ old_phone) →
      r.edit_phone old_phone new_phone =
        .error (.valueError "Phone number not found".toList)) ∧
    (r.phones = l1 ++ p :: l2 → (∀ q ∈ l1, q.val ≠ old_phone) → p.val = old_phone →
      (Phone.is_valid_phone new_phone = true →
        r.edit_phone old_phone new_phone =
          .ok { r with phones := l1 ++ ⟨new_phone⟩ :: l2 }) ∧
      (Phone.is_valid_phone new_phone = false →
        r.edit_phone old_phone new_phone = .error (.valueError phoneFormatMsg))) := by
  constructor
  · intro h
    unfold Record.edit_phone
    rw [editPhones_not_found r.phones old_phone new_phone h]
    rfl
  · intro hsplit h1 hp
    constructor
    · intro hv
      unfold Record.edit_phone
      rw [hsplit, editPhones_found l1 p l2 old_phone new_phone h1 hp, if_pos hv]
      rfl
    · intro hv
      unfold Record.edit_phone
      rw [hsplit, editPhones_found l1 p l2 old_phone new_phone h1 hp,
         if_neg (by rw [hv]; exact Bool.false_ne_true)]
      rfl

/-- C6 witness: on a record with phones `1111111111, 2222222222`, editing
`2222222222` to a valid number replaces exactly that phone, editing a
missing number fails with `NotFound`, and editing to a malformed number
fails with the format error. -/
theorem edit_phone_spec_witness :
    (twoPhoneRec.edit_phone "2222222222".toList "3333333333".toList =
      .ok { twoPhoneRec with
            phones := [⟨"1111111111".toList⟩, ⟨"3333333333".toList⟩] }) ∧
    (twoPhoneRec.edit_phone "9999999999".toList "3333333333".toList =
      .error (.valueError "Phone number not found".toList)) ∧
    (twoPhoneRec.edit_phone "2222222222".toList "12".toList =
      .error (.valueError phoneFormatMsg)) :=
  ⟨((edit_phone_spec twoPhoneRec "2222222222".toList "3333333333".toList
      [⟨"1111111111".toList⟩] ⟨"2222222222".toList⟩ []).2 rfl (by decide) rfl).1
      (by decide),
   (edit_phone_spec twoPhoneRec "9999999999".toList "3333333333".toList
      [] ⟨"".toList⟩ []).1 (by decide),
   ((edit_phone_spec twoPhoneRec "2222222222".toList "12".toList
      [⟨"1111111111".toList⟩] ⟨"2222222222".toList⟩ []).2 rfl (by decide) rfl).2
      (by decide)⟩

lemma pySplitWsAux_token (t : List Char) (ht : ∀ c ∈ t, isPySpace c = false) :
    ∀ (acc rest : List Char),
      pySplitWsAux acc (t ++ rest) = pySplitWsAux (t.reverse ++ acc) rest := by
  induction t with
  | nil => intro acc rest; simp
  | cons c cs ih =>
    intro acc rest
    have hc : isPySpace c = false := ht c (List.mem_cons_self c cs)
    rw [List.cons_append, pySplitWsAux, hc]
    simp only [Bool.false_eq_true, if_false]
    rw [ih (fun x hx => ht x (List.mem_cons_of_mem c hx)) (c :: acc) rest]
    simp [List.reverse_cons, List.append_assoc]

lemma pySplitWs_token_cons (t rest : List Char) (hne : t ≠ [])
    (ht : ∀ c ∈ t, isPySpace c = false) :
    pySplitWs (t ++ ' ' :: rest) = t :: pySplitWs rest := by
  unfold pySplitWs
  rw [pySplitWsAux_token t ht [] (' ' :: rest)]
  simp only [List.append_nil]
  rw [pySplitWsAux]
  simp [isPySpace, hne]

lemma pySplitWs_single (t : List Char) (hne : t ≠ [])
    (ht : ∀ c ∈ t, isPySpace c = false) :
    pySplitWs t = [t] := by
  have h := pySplitWsAux_token t ht [] []
  simp only [List.append_nil] at h
  unfold pySplitWs
  rw [h, pySplitWsAux]
  simp [hne]

/-- C2.  The claim says `show page <n>` replies with the page contents or
`Invalid page number.`.  The code cannot do either: the statement
`_, page_str = command.split(' ', 2)` runs before the `try` block and splits
every `show page ...` line into THREE pieces (`show`, `page`, the rest), so
the two-name tuple unpacking always raises
`ValueError: too many values to unpack (expected 2)`, which escapes
`parse_command` (the loop shows it as `Error: ...`).  This holds for every
suffix and every book, and the book is left unchanged. -/
theorem show_page_unpack_error (rest : List Char) (contacts : AddressBook) :
    Assistant.parse_command ("show page ".toList ++ rest) contacts =
      (.error (.valueError "too many values to unpack (expected 2)".toList), contacts) := by
  have hcmd : pyLower ("show page ".toList ++ rest) =
      's' :: 'h' :: 'o' :: 'w' :: ' ' :: 'p' :: 'a' :: 'g' :: 'e' :: ' ' :: pyLower rest := rfl
  simp only [Assistant.parse_command, hcmd]
  simp [List.isPrefixOf, pySplitSp, breakSp, unpack2Msg]

/-- C9.  The `add <name> <phone> <birthday>` command is not atomic: when the
phone is malformed the command fails with the phone format error, yet the
record (with an empty phone list) has already been inserted under the name
and remains in the returned book, where `find` retrieves it. -/
theorem add_command_not_atomic (book : AddressBook) (name phone birthday : List Char)
    (hname1 : name ≠ []) (hname2 : ∀ c ∈ name, isPySpace c = false)
    (hname3 : pyLower name = name)
    (hph1 : phone ≠ []) (hph2 : ∀ c ∈ phone, isPySpace c = false)
    (hph3 : pyLower phone = phone)
    (hbd1 : birthday ≠ []) (hbd2 : ∀ c ∈ birthday, isPySpace c = false)
    (hbd3 : pyLower birthday = birthday)
    (hbad : Phone.is_valid_phone phone = false) :
    Assistant.parse_command
        ("add ".toList ++ (name ++ (' ' :: (phone ++ (' ' :: birthday))))) book =
      (.error (.valueError phoneFormatMsg),
       book.add_record (Record.init name birthday)) ∧
    (book.add_record (Record.init name birthday)).find name =
      some (Record.init name birthday) ∧
    (Record.init name birthday).phones = [] := by
  have hfind : (book.add_record (Record.init name birthday)).find name =
      some (Record.init name birthday) := find_add_record book (Record.init name birthday)
  refine ⟨?_, hfind, rfl⟩
  have hX : pyLower (name ++ (' ' :: (phone ++ (' ' :: birthday)))) =
      name ++ (' ' :: (phone ++ (' ' :: birthday))) := by
    simp only [pyLower] at hname3 hph3 hbd3 ⊢
    simp [List.map_append, hname3, hph3, hbd3, pyLowerChar]
  have hcmd : pyLower ("add ".toList ++ (name ++ (' ' :: (phone ++ (' ' :: birthday))))) =
      'a' :: 'd' :: 'd' :: ' ' :: (name ++ (' ' :: (phone ++ (' ' :: birthday)))) := by
    show 'a' :: 'd' :: 'd' :: ' ' :: pyLower (name ++ (' ' :: (phone ++ (' ' :: birthday)))) = _
    rw [hX]
  simp only [Assistant.parse_command, hcmd]
  simp [List.isPrefixOf, pySplitSp, breakSp]
  rw [pySplitWs_token_cons name _ hname1 hname2, pySplitWs_token_cons phone _ hph1 hph2,
     pySplitWs_single birthday hbd1 hbd2]
  simp [hfind, Phone.init, hbad]

/-- C9 witness: `add john 123 1990-05-01` on the empty book errors with the
phone format message yet leaves a `john` record with no phones in the book. -/
theorem add_command_not_atomic_witness :
    Assistant.parse_command "add john 123 1990-05-01".toList AddressBook.empty =
      (.error (.valueError phoneFormatMsg),
       AddressBook.empty.add_record (Record.init "john".toList "1990-05-01".toList)) ∧
    (AddressBook.empty.add_record (Record.init "john".toList "1990-05-01".toList)).find
        "john".toList = some (Record.init "john".toList "1990-05-01".toList) ∧
    (Record.init "john".toList "1990-05-01".toList).phones = [] :=
  add_command_not_atomic AddressBook.empty "john".toList "123".toList "1990-05-01".toList
    (by decide) (by decide) (by decide) (by decide) (by decide) (by decide)
    (by decide) (by decide) (by decide) (by decide)

/-- C10.  For a contact present in the book with an empty phone list, both
`change <name> <phone>` and `phone <name>` evaluate `contact.phones[0]`
without a guard and so fail with an `IndexError` (not a `NotFound` or
format `ValueError`), leaving the book unchanged. -/
theorem empty_phone_list_index_error (book : AddressBook) (name phone : List Char)
    (r : Record)
    (hname1 : name ≠ []) (hname2 : ∀ c ∈ name, isPySpace c = false)
    (hname3 : pyLower name = name)
    (hph1 : phone ≠ []) (hph2 : ∀ c ∈ phone, isPySpace c = false)
    (hph3 : pyLower phone = phone)
    (hfound : book.find name = some r) (hempty : r.phones = []) :
    Assistant.parse_command ("change ".toList ++ (name ++ (' ' :: phone))) book =
      (.error .indexError, book) ∧
    Assistant.parse_command ("phone ".toList ++ name) book =
      (.error .indexError, book) := by
  constructor
  · have hcmd : pyLower ("change ".toList ++ (name ++ (' ' :: phone))) =
        'c' :: 'h' :: 'a' :: 'n' :: 'g' :: 'e' :: ' ' :: (name ++ (' ' :: phone)) := by
      show 'c' :: 'h' :: 'a' :: 'n' :: 'g' :: 'e' :: ' ' ::
          pyLower (name ++ (' ' :: phone)) = _
      simp only [pyLower] at hname3 hph3 ⊢
      simp [List.map_append, hname3, hph3, pyLowerChar]
    simp only [Assistant.parse_command, hcmd]
    simp [List.isPrefixOf, pySplitSp, breakSp]
    rw [pySplitWs_token_cons name _ hname1 hname2, pySplitWs_single phone hph1 hph2]
    simp [hfound, hempty]
  · have hcmd : pyLower ("phone ".toList ++ name) =
        'p' :: 'h' :: 'o' :: 'n' :: 'e' :: ' ' :: name := by
      show 'p' :: 'h' :: 'o' :: 'n' :: 'e' :: ' ' :: pyLower name = _
      rw [hname3]
    simp only [Assistant.parse_command, hcmd]
    simp [List.isPrefixOf, pySplitSp, breakSp, hfound, hempty]

/-- C10 witness: with a `bob` record having no phones, `change bob
1234567890` and `phone bob` both fail with an `IndexError`. -/
theorem empty_phone_list_index_error_witness :
    Assistant.parse_command "change bob 1234567890".toList
        (AddressBook.empty.add_record (Record.init "bob".toList [])) =
      (.error .indexError, AddressBook.empty.add_record (Record.init "bob".toList [])) ∧
    Assistant.parse_command "phone bob".toList
        (AddressBook.empty.add_record (Record.init "bob".toList [])) =
      (.error .indexError, AddressBook.empty.add_record (Record.init "bob".toList [])) :=
  empty_phone_list_index_error (AddressBook.empty.add_record (Record.init "bob".toList []))
    "bob".toList "1234567890".toList (Record.init "bob".toList [])
    (by decide) (by decide) (by decide) (by decide) (by decide) (by decide)
    (by decide) rfl
